import Mathlib

/-!
Shallow embedding of the lottery synchronization core:
the remote store adapter (class FirebaseCore, src/unnamed/part_001),
the event bus (class LotteryEvents, src/lottery_events.js) and the
state reconciler (class LotteryStateManager, src/lottery_events.js).

JSON-like values are modelled by an inductive; localStorage and the
remote realtime database are modelled as maps from string keys to
optional values (none = key absent / remote read yields null).
Remote I/O that can fail (a rejected promise, caught by the source's
try/catch) is modelled by an explicit boolean success parameter.
-/

/-- A JSON-like value as stored in localStorage (after JSON.stringify /
JSON.parse round-trips) or in the remote realtime database. -/
inductive Val where
  | vNull : Val
  | vBool : Bool → Val
  | vNum : Int → Val
  | vStr : String → Val
  | vArr : List Val → Val
  | vObj : List (String × Val) → Val

/-- JavaScript truthiness of a value, as used by the guards
`if (employees) ...` in FirebaseCore.syncLocalToCloud
(src/unnamed/part_001 lines 220, 226, 232). -/
def truthy : Val → Bool
  | Val.vNull => false
  | Val.vBool b => b
  | Val.vNum n => n != 0
  | Val.vStr s => s != ""
  | Val.vArr _ => true
  | Val.vObj _ => true

/-- A keyed store (localStorage, or the remote database seen as a flat
map from paths to values); none models an absent key, which is what a
remote read reports as null. -/
def Store : Type := String → Option Val

def emptyStore : Store := fun _ => none

def setKey (m : Store) (k : String) (v : Val) : Store :=
  fun q => if q = k then some v else m q

def getKey (m : Store) (k : String) : Option Val := m k

/- String literals used by the source, bound to names once. -/

def lotteryHead : String := "lottery_"

def pathEmployees : String := "employees"

def pathPrizes : String := "prizes"

def pathLotteryState : String := "lotteryState"

def pathWinners : String := "winners"

def pathEventsRoot : String := "events"

def slashStr : String := "/"

/-- The slash-to-underscore translation performed by
`path.replace(/\//g, '_')` in saveToLocal / loadFromLocal
(src/unnamed/part_001 lines 247, 256). -/
def replaceSlash (s : String) : String :=
  String.mk (s.data.map (fun c => if c = '/' then '_' else c))

/-- The derived localStorage key for a remote path:
`lottery_` followed by the path with every slash replaced by an
underscore (src/unnamed/part_001 lines 247, 256). -/
def localKey (path : String) : String :=
  lotteryHead ++ replaceSlash path

/-- The mutable fields of class FirebaseCore that the claims concern:
the two connectivity flags, localStorage, and the remote database
contents (src/unnamed/part_001 lines 8-17). -/
structure FirebaseCore where
  isConnected : Bool
  localMode : Bool
  localStore : Store
  remote : Store

/-- FirebaseCore.saveToLocal (src/unnamed/part_001 lines 245-252):
writes JSON.stringify(data) to localStorage under the derived key. -/
def FirebaseCore.saveToLocal (s : FirebaseCore) (path : String) (data : Val) : FirebaseCore :=
  { s with localStore := setKey s.localStore (localKey path) data }

/-- FirebaseCore.loadFromLocal (src/unnamed/part_001 lines 254-263):
reads localStorage under the derived key, returning the parsed value
or null when the key is absent. -/
def FirebaseCore.loadFromLocal (s : FirebaseCore) (path : String) : Option Val :=
  getKey s.localStore (localKey path)

/-- FirebaseCore.setData (src/unnamed/part_001 lines 86-106): always
saves to localStorage first; when connected and not in local mode it
also writes to the remote database. `remoteOk = false` models the
remote write rejecting: the catch block saves to localStorage again
and the call resolves to false. Otherwise it resolves to true. -/
def FirebaseCore.setData (remoteOk : Bool) (s : FirebaseCore) (path : String) (data : Val) :
    FirebaseCore × Bool :=
  let s1 := s.saveToLocal path data
  if s1.isConnected && !s1.localMode then
    if remoteOk then
      ({ s1 with remote := setKey s1.remote path data }, true)
    else
      (s1.saveToLocal path data, false)
  else
    (s1, true)

/-- FirebaseCore.getData (src/unnamed/part_001 lines 111-130): when
connected and not in local mode it reads the remote database; a
non-null remote value refreshes the localStorage mirror and is
returned; a null remote value, a rejected remote read
(`remoteOk = false`), or disconnected/local mode all fall back to
loadFromLocal. -/
def FirebaseCore.getData (remoteOk : Bool) (s : FirebaseCore) (path : String) :
    FirebaseCore × Option Val :=
  if s.isConnected && !s.localMode then
    if remoteOk then
      match getKey s.remote path with
      | some data => (s.saveToLocal path data, some data)
      | none => (s, s.loadFromLocal path)
    else
      (s, s.loadFromLocal path)
  else
    (s, s.loadFromLocal path)

/-- One push of syncLocalToCloud for a single path: if localStorage
holds a truthy value under the path's derived key, write it to the
remote database (src/unnamed/part_001 lines 219-234). -/
def FirebaseCore.pushLocalPath (s : FirebaseCore) (path : String) : FirebaseCore :=
  match s.loadFromLocal path with
  | some v => if truthy v then { s with remote := setKey s.remote path v } else s
  | none => s

/-- FirebaseCore.syncLocalToCloud (src/unnamed/part_001 lines 214-240):
returns immediately unless connected and not in local mode; otherwise
pushes exactly the three fixed paths employees, prizes, lotteryState
from localStorage to the remote database, in that order.
`remoteOk = false` models a remote write rejecting, in which case the
catch block leaves the state as it was (no remote write lands). -/
def FirebaseCore.syncLocalToCloud (remoteOk : Bool) (s : FirebaseCore) : FirebaseCore :=
  if !s.isConnected || s.localMode then s
  else if remoteOk then
    ((s.pushLocalPath pathEmployees).pushLocalPath pathPrizes).pushLocalPath pathLotteryState
  else s

/-- One step of the `.info/connected` listener installed by
FirebaseCore.setupConnectionMonitoring (src/unnamed/part_001 lines
45-61): records the received connectivity value; on disconnect sets
localMode, on connect clears localMode and runs syncLocalToCloud. -/
def FirebaseCore.onConnectedSnapshot (remoteOk : Bool) (s : FirebaseCore) (connected : Bool) :
    FirebaseCore :=
  let s1 := { s with isConnected := connected }
  if !connected then { s1 with localMode := true }
  else FirebaseCore.syncLocalToCloud remoteOk { s1 with localMode := false }

/-- States reachable from `s0` by one or more steps of the
connection-monitoring listener. -/
inductive MonitorReached (s0 : FirebaseCore) : FirebaseCore → Prop where
  | step : ∀ (remoteOk connected : Bool),
      MonitorReached s0 (FirebaseCore.onConnectedSnapshot remoteOk s0 connected)
  | more : ∀ (s : FirebaseCore) (remoteOk connected : Bool),
      MonitorReached s0 s →
      MonitorReached s0 (FirebaseCore.onConnectedSnapshot remoteOk s connected)

/- Event bus (class LotteryEvents, src/lottery_events.js). -/

def kType : String := "type"

def kData : String := "data"

def kTimestamp : String := "timestamp"

def kId : String := "id"

def kState : String := "state"

def stateChangedType : String := "STATE_CHANGED"

/-- An event as constructed by FirebaseCore.sendEvent
(src/unnamed/part_001 lines 183-192). -/
structure Event where
  type : String
  data : Val
  timestamp : Int
  id : String

/-- The JSON object that sendEvent stores under `events/<id>`. -/
def encodeEvent (e : Event) : Val :=
  Val.vObj [(kType, Val.vStr e.type), (kData, e.data),
            (kTimestamp, Val.vNum e.timestamp), (kId, Val.vStr e.id)]

/-- The path `events/` ++ id under which sendEvent stores an event. -/
def eventsPathOf (eid : String) : String :=
  pathEventsRoot ++ slashStr ++ eid

/-- FirebaseCore.sendEvent (src/unnamed/part_001 lines 183-192): builds
an event from the type, the payload, the current time and a freshly
generated id (the latter two supplied as parameters here) and stores
it via setData, returning setData's boolean result. -/
def FirebaseCore.sendEvent (remoteOk : Bool) (s : FirebaseCore) (eventType : String)
    (eventData : Val) (now : Int) (eid : String) : FirebaseCore × Bool :=
  let ev : Event := { type := eventType, data := eventData, timestamp := now, id := eid }
  FirebaseCore.setData remoteOk s (eventsPathOf eid) (encodeEvent ev)

/-- LotteryEvents.broadcastEvent (src/lottery_events.js lines 109-119):
awaits sendEvent and returns true; it would return false only if
sendEvent rejected, which setData never does (setData catches remote
failures and resolves to false, a value broadcastEvent discards). -/
def LotteryEvents.broadcastEvent (remoteOk : Bool) (s : FirebaseCore) (eventType : String)
    (eventData : Val) (now : Int) (eid : String) : FirebaseCore × Bool :=
  let r := FirebaseCore.sendEvent remoteOk s eventType eventData now eid
  (r.1, true)

/-- The comparator step of `eventList.sort((a, b) => b.timestamp -
a.timestamp)[0]`: between the current best and the next candidate,
keep the candidate exactly when its timestamp is strictly greater. -/
def pickMoreRecent (a b : Event) : Event :=
  if b.timestamp > a.timestamp then b else a

/-- The reduction of the events collection to the single
maximum-timestamp event performed by FirebaseCore.onEvent
(src/unnamed/part_001 lines 197-209); none when the collection is
empty or absent. -/
def pickLatest : List Event → Option Event
  | [] => none
  | e :: es => some (es.foldl pickMoreRecent e)

/-- A registered event handler; an Except.error result models the
handler throwing (caught per handler by handleIncomingEvent). -/
abbrev Handler : Type := Val → Event → Except String Unit

/-- The caught outcome of invoking one handler with `(event.data,
event)`: none if it returns, the error message if it throws (the
try/catch around `handler(event.data, event)` in
src/lottery_events.js lines 96-102). -/
def handlerOutcome (h : Handler) (e : Event) : Option String :=
  match h e.data e with
  | Except.ok _ => none
  | Except.error msg => some msg

/-- The forEach over the registered handlers in handleIncomingEvent:
each handler is invoked in order and its throw, if any, is caught and
logged, never aborting the iteration. -/
def runHandlersCaught : List Handler → Event → List (Option String)
  | [], _ => []
  | h :: t, e => handlerOutcome h e :: runHandlersCaught t e

/-- The dedup state of class LotteryEvents: `lastEventId`, initially
null (src/lottery_events.js line 11). -/
structure BusState where
  lastEventId : Option String

/-- LotteryEvents.handleIncomingEvent (src/lottery_events.js lines
86-104): returns without dispatch when the event's id equals
lastEventId; otherwise records the id and invokes every handler
registered for the event's type, catching each handler's throw.
The second component is none when the event was deduplicated, and
the list of caught per-handler outcomes when it was dispatched. -/
def handleIncomingEvent (handlers : String → List Handler) (b : BusState) (e : Event) :
    BusState × Option (List (Option String)) :=
  if b.lastEventId = some e.id then (b, none)
  else (BusState.mk (some e.id), some (runHandlersCaught (handlers e.type) e))

/-- One delivery of the events collection to the subscription built by
FirebaseCore.onEvent (src/unnamed/part_001 lines 197-209) with
LotteryEvents.handleIncomingEvent as the callback
(src/lottery_events.js lines 58-67): reduce the collection to its
maximum-timestamp event, drop it if it is 5000ms or older, otherwise
hand it to handleIncomingEvent. The second component carries the
dispatched event and its handler outcomes, or none if nothing was
dispatched. -/
def onEventStep (handlers : String → List Handler) (now : Int) (evs : List Event)
    (b : BusState) : BusState × Option (Event × List (Option String)) :=
  match pickLatest evs with
  | none => (b, none)
  | some e =>
      if now - e.timestamp < 5000 then
        match handleIncomingEvent handlers b e with
        | (b2, some tr) => (b2, some (e, tr))
        | (b2, none) => (b2, none)
      else (b, none)

/-- The event dispatched by one delivery, if any. -/
def onEventDispatched (handlers : String → List Handler) (now : Int) (evs : List Event)
    (b : BusState) : Option Event :=
  (onEventStep handlers now evs b).2.map Prod.fst

/- State reconciler (class LotteryStateManager, src/lottery_events.js). -/

def kStatus : String := "status"

def kCurrentPrize : String := "currentPrize"

def kCurrentWinner : String := "currentWinner"

def kWinners : String := "winners"

def kAvailableEmployees : String := "availableEmployees"

def kCompletedPrizes : String := "completedPrizes"

def statusRolling : String := "rolling"

/-- The canonical state object of LotteryStateManager
(src/lottery_events.js lines 234-241). -/
structure LotteryState where
  status : String
  currentPrize : Option Val
  currentWinner : Option Val
  winners : List Val
  availableEmployees : List Val
  completedPrizes : List Val

/-- A partial update passed to updateState: for each key of the
canonical state, some x means the key is present in the update object
with value x (for the nullable fields, some none means the key is
present with value null), none means the key is absent. -/
structure StatePatch where
  status : Option String := none
  currentPrize : Option (Option Val) := none
  currentWinner : Option (Option Val) := none
  winners : Option (List Val) := none
  availableEmployees : Option (List Val) := none
  completedPrizes : Option (List Val) := none

/-- The object-spread merge `{ ...this.state, ...newState }` of
LotteryStateManager.updateState (src/lottery_events.js line 270),
restricted to the canonical keys: a key present in the update object
overrides, a key absent keeps the current value. -/
def mergeState (s : LotteryState) (q : StatePatch) : LotteryState :=
  { status := q.status.getD s.status,
    currentPrize := q.currentPrize.getD s.currentPrize,
    currentWinner := q.currentWinner.getD s.currentWinner,
    winners := q.winners.getD s.winners,
    availableEmployees := q.availableEmployees.getD s.availableEmployees,
    completedPrizes := q.completedPrizes.getD s.completedPrizes }

/-- The JSON object persisted for a canonical state. -/
def encodeState (s : LotteryState) : Val :=
  Val.vObj [(kStatus, Val.vStr s.status),
            (kCurrentPrize, s.currentPrize.getD Val.vNull),
            (kCurrentWinner, s.currentWinner.getD Val.vNull),
            (kWinners, Val.vArr s.winners),
            (kAvailableEmployees, Val.vArr s.availableEmployees),
            (kCompletedPrizes, Val.vArr s.completedPrizes)]

/-- The mutable fields of LotteryStateManager: the canonical state and
the FirebaseCore instance it writes through. -/
structure ManagerState where
  state : LotteryState
  core : FirebaseCore

/-- LotteryStateManager.updateState (src/lottery_events.js lines
268-284): merges the update into the canonical state, persists the
merged state via setData under the lotteryState path, and, when
`broadcast` is true, publishes a STATE_CHANGED event carrying the full
merged state through LotteryEvents.updateState →  broadcastEvent
(src/lottery_events.js lines 199-204). The rwState and rwEvent flags
model the success of the two remote writes; now and eid supply the
event's timestamp and generated id. -/
def LotteryStateManager.updateState (rwState rwEvent : Bool) (now : Int) (eid : String)
    (m : ManagerState) (patch : StatePatch) (broadcast : Bool) : ManagerState :=
  let newSt := mergeState m.state patch
  let core1 := (FirebaseCore.setData rwState m.core pathLotteryState (encodeState newSt)).1
  let core2 :=
    if broadcast then
      (LotteryEvents.broadcastEvent rwEvent core1 stateChangedType
        (Val.vObj [(kState, encodeState newSt), (kTimestamp, Val.vNum now)]) now eid).1
    else core1
  { state := newSt, core := core2 }

/-- The update object of the claimed first call:
`{ status: 'rolling', currentPrize: P }`. -/
def startPatch (P : Val) : StatePatch :=
  { status := some statusRolling, currentPrize := some (some P) }

/-- The update object of the claimed second call:
`{ currentWinner: W }`. -/
def winnerPatch (W : Val) : StatePatch :=
  { currentWinner := some (some W) }

/- Store lemmas. -/

theorem getKey_setKey_self (m : Store) (k : String) (v : Val) :
    getKey (setKey m k v) k = some v := by
  simp [getKey, setKey]

theorem getKey_setKey_ne (m : Store) (k q : String) (v : Val) (h : q ≠ k) :
    getKey (setKey m k v) q = getKey m q := by
  simp [getKey, setKey, h]

/- Concrete inputs reused by witnesses and counterexamples. -/

def pathA : String := "events/x"

def pathB : String := "events_x"

def vOne : Val := Val.vNum 1

def idX : String := "event_1_aaaaaaaaa"

def typeX : String := "LOTTERY_RESULT"

def sOffline : FirebaseCore :=
  { isConnected := false, localMode := true, localStore := emptyStore, remote := emptyStore }

def sConn : FirebaseCore :=
  { isConnected := true, localMode := false, localStore := emptyStore, remote := emptyStore }

def sConnLoc : FirebaseCore :=
  { isConnected := true, localMode := false,
    localStore := setKey emptyStore (localKey pathPrizes) vOne, remote := emptyStore }

/-- Claim C1: a call setData(p, v) followed by getData(p), with no
intervening disconnect and no intervening write to p, returns a value
equal to v — both in the connected case (where the hypothesis asks the
remote write of setData to succeed, and the value is read back either
from the remote store or, if the remote read then fails, from the
local cache) and in the disconnected case (where the local cache entry
written by setData is read back). -/
theorem claim1_set_then_get (s : FirebaseCore) (p : String) (v : Val) (rw rg : Bool)
    (h : (s.isConnected && !s.localMode) = true → rw = true) :
    (FirebaseCore.getData rg (FirebaseCore.setData rw s p v).1 p).2 = some v := by
  by_cases hc : (s.isConnected && !s.localMode) = true
  · have hrw := h hc
    subst hrw
    cases rg with
    | true =>
        simp [FirebaseCore.setData, FirebaseCore.saveToLocal, FirebaseCore.getData,
          FirebaseCore.loadFromLocal, hc, getKey_setKey_self]
    | false =>
        simp [FirebaseCore.setData, FirebaseCore.saveToLocal, FirebaseCore.getData,
          FirebaseCore.loadFromLocal, hc, getKey_setKey_self]
  · simp [FirebaseCore.setData, FirebaseCore.saveToLocal, FirebaseCore.getData,
      FirebaseCore.loadFromLocal, hc, getKey_setKey_self]

theorem claim1_witness :
    (FirebaseCore.getData true (FirebaseCore.setData true sConn pathPrizes vOne).1 pathPrizes).2
      = some vOne :=
  claim1_set_then_get sConn pathPrizes vOne true true (fun _ => rfl)

/-- Claim C8: broadcastEvent resolves to true whenever sendEvent
resolves without throwing — which sendEvent always does, because
setData catches remote-write failures and resolves to false; that
boolean is discarded by broadcastEvent, so a connected client whose
remote write fails still sees broadcastEvent report success. -/
theorem claim8_broadcast_discards_failure (rw : Bool) (s : FirebaseCore) (t : String)
    (d : Val) (now : Int) (eid : String) :
    (LotteryEvents.broadcastEvent rw s t d now eid).2 = true ∧
    ((s.isConnected && !s.localMode) = true →
      (FirebaseCore.sendEvent false s t d now eid).2 = false) := by
  constructor
  · rfl
  · intro hc
    simp [FirebaseCore.sendEvent, FirebaseCore.setData, FirebaseCore.saveToLocal, hc]

theorem claim8_witness :
    (LotteryEvents.broadcastEvent false sConn typeX vOne 0 idX).2 = true ∧
    (FirebaseCore.sendEvent false sConn typeX vOne 0 idX).2 = false :=
  ⟨(claim8_broadcast_discards_failure false sConn typeX vOne 0 idX).1,
   (claim8_broadcast_discards_failure false sConn typeX vOne 0 idX).2 rfl⟩

/-- Claim C9: when getData(p) runs connected and the remote read
succeeds but yields null, it returns the local cache value at p (null
if that too is absent) and leaves the whole adapter state — in
particular the cache entry at p — unchanged. -/
theorem claim9_null_remote_falls_back (s : FirebaseCore) (p : String)
    (hc : (s.isConnected && !s.localMode) = true)
    (habs : getKey s.remote p = none) :
    (FirebaseCore.getData true s p).2 = s.loadFromLocal p ∧
    (FirebaseCore.getData true s p).1 = s := by
  constructor <;> simp [FirebaseCore.getData, hc, habs]

theorem claim9_witness :
    (FirebaseCore.getData true sConnLoc pathPrizes).2 = sConnLoc.loadFromLocal pathPrizes ∧
    (FirebaseCore.getData true sConnLoc pathPrizes).1 = sConnLoc :=
  claim9_null_remote_falls_back sConnLoc pathPrizes rfl rfl

/-- Claim C10: the remote-path to local-cache-key translation
(lottery_ plus slash-to-underscore) is not injective: the distinct
paths events/x and events_x map to the same localStorage key, so a
setData to events/x performed while disconnected makes a subsequent
disconnected getData of events_x return the value written, for every
value v. -/
theorem claim10_key_collision (s : FirebaseCore) (v : Val) (rw rg : Bool)
    (hdisc : (s.isConnected && !s.localMode) = false) :
    pathA ≠ pathB ∧ localKey pathA = localKey pathB ∧
    (FirebaseCore.getData rg (FirebaseCore.setData rw s pathA v).1 pathB).2 = some v := by
  refine ⟨by decide, rfl, ?_⟩
  have hkey : localKey pathB = localKey pathA := rfl
  simp [FirebaseCore.setData, FirebaseCore.saveToLocal, FirebaseCore.getData,
    FirebaseCore.loadFromLocal, hdisc, hkey, getKey_setKey_self]

theorem claim10_witness :
    pathA ≠ pathB ∧ localKey pathA = localKey pathB ∧
    (FirebaseCore.getData false (FirebaseCore.setData false sOffline pathA vOne).1 pathB).2
      = some vOne :=
  claim10_key_collision sOffline vOne false false rfl

/-- Claim C2: updateState shallow-merges — each canonical key present
in the update object replaces the canonical state's key and each
absent key is left unchanged (the getD equations state both at once) —
and in particular updating with status rolling plus a prize, then with
only a winner, yields a canonical state with status rolling, that
prize and that winner. -/
theorem claim2_update_state_merges (rw1 rwE1 rw2 rwE2 : Bool) (n1 n2 : Int)
    (i1 i2 : String) (b1 b2 : Bool) :
    (∀ (m : ManagerState) (q : StatePatch),
      (LotteryStateManager.updateState rw1 rwE1 n1 i1 m q b1).state.status
          = q.status.getD m.state.status ∧
      (LotteryStateManager.updateState rw1 rwE1 n1 i1 m q b1).state.currentPrize
          = q.currentPrize.getD m.state.currentPrize ∧
      (LotteryStateManager.updateState rw1 rwE1 n1 i1 m q b1).state.currentWinner
          = q.currentWinner.getD m.state.currentWinner ∧
      (LotteryStateManager.updateState rw1 rwE1 n1 i1 m q b1).state.winners
          = q.winners.getD m.state.winners ∧
      (LotteryStateManager.updateState rw1 rwE1 n1 i1 m q b1).state.availableEmployees
          = q.availableEmployees.getD m.state.availableEmployees ∧
      (LotteryStateManager.updateState rw1 rwE1 n1 i1 m q b1).state.completedPrizes
          = q.completedPrizes.getD m.state.completedPrizes) ∧
    (∀ (m : ManagerState) (P W : Val),
      (LotteryStateManager.updateState rw2 rwE2 n2 i2
          (LotteryStateManager.updateState rw1 rwE1 n1 i1 m (startPatch P) b1)
          (winnerPatch W) b2).state.status = statusRolling ∧
      (LotteryStateManager.updateState rw2 rwE2 n2 i2
          (LotteryStateManager.updateState rw1 rwE1 n1 i1 m (startPatch P) b1)
          (winnerPatch W) b2).state.currentPrize = some P ∧
      (LotteryStateManager.updateState rw2 rwE2 n2 i2
          (LotteryStateManager.updateState rw1 rwE1 n1 i1 m (startPatch P) b1)
          (winnerPatch W) b2).state.currentWinner = some W) :=
  ⟨fun _ _ => ⟨rfl, rfl, rfl, rfl, rfl, rfl⟩, fun _ _ _ => ⟨rfl, rfl, rfl⟩⟩

/- Lemmas about the maximum-timestamp reduction of the events
collection. -/

theorem foldl_pickMoreRecent_mem (es : List Event) (a : Event) :
    es.foldl pickMoreRecent a = a ∨ es.foldl pickMoreRecent a ∈ es := by
  induction es generalizing a with
  | nil => exact Or.inl rfl
  | cons b t ih =>
      rcases ih (pickMoreRecent a b) with h | h
      · rw [List.foldl_cons, h]
        unfold pickMoreRecent
        split
        · exact Or.inr (List.mem_cons_self b t)
        · exact Or.inl rfl
      · exact Or.inr (List.mem_cons_of_mem b (by rw [List.foldl_cons]; exact h))

theorem le_pickMoreRecent_left (a b : Event) :
    a.timestamp ≤ (pickMoreRecent a b).timestamp := by
  unfold pickMoreRecent
  split
  · omega
  · exact le_refl _

theorem le_pickMoreRecent_right (a b : Event) :
    b.timestamp ≤ (pickMoreRecent a b).timestamp := by
  unfold pickMoreRecent
  split
  · exact le_refl _
  · omega

theorem foldl_pickMoreRecent_le (es : List Event) (a : Event) :
    a.timestamp ≤ (es.foldl pickMoreRecent a).timestamp ∧
    ∀ x ∈ es, x.timestamp ≤ (es.foldl pickMoreRecent a).timestamp := by
  induction es generalizing a with
  | nil => exact ⟨le_refl _, by simp⟩
  | cons b t ih =>
      have ih' := ih (pickMoreRecent a b)
      rw [List.foldl_cons]
      refine ⟨le_trans (le_pickMoreRecent_left a b) ih'.1, ?_⟩
      intro x hx
      rcases List.mem_cons.mp hx with hx | hx
      · subst hx
        exact le_trans (le_pickMoreRecent_right a x) ih'.1
      · exact ih'.2 x hx

theorem pickLatest_mem (evs : List Event) (e : Event) (h : pickLatest evs = some e) :
    e ∈ evs := by
  cases evs with
  | nil => exact absurd h (by simp [pickLatest])
  | cons a t =>
      have he : t.foldl pickMoreRecent a = e := by
        simpa [pickLatest] using h
      rcases foldl_pickMoreRecent_mem t a with hm | hm
      · rw [← he, hm]; exact List.mem_cons_self a t
      · rw [← he]; exact List.mem_cons_of_mem a hm

theorem pickLatest_max (evs : List Event) (e : Event) (h : pickLatest evs = some e) :
    ∀ x ∈ evs, x.timestamp ≤ e.timestamp := by
  cases evs with
  | nil => exact absurd h (by simp [pickLatest])
  | cons a t =>
      have he : t.foldl pickMoreRecent a = e := by
        simpa [pickLatest] using h
      intro x hx
      rcases List.mem_cons.mp hx with hx | hx
      · subst hx
        rw [← he]
        exact (foldl_pickMoreRecent_le t x).1
      · rw [← he]
        exact (foldl_pickMoreRecent_le t a).2 x hx


/- Case characterizations of one delivery of the events collection. -/

theorem onEventStep_no_latest (handlers : String → List Handler) (now : Int)
    (evs : List Event) (b : BusState) (hp : pickLatest evs = none) :
    onEventStep handlers now evs b = (b, none) := by
  simp [onEventStep, hp]

theorem onEventStep_stale (handlers : String → List Handler) (now : Int)
    (evs : List Event) (b : BusState) (e : Event) (hp : pickLatest evs = some e)
    (hf : ¬ now - e.timestamp < 5000) :
    onEventStep handlers now evs b = (b, none) := by
  simp [onEventStep, hp, hf]

theorem onEventStep_dup (handlers : String → List Handler) (now : Int)
    (evs : List Event) (b : BusState) (e : Event) (hp : pickLatest evs = some e)
    (hf : now - e.timestamp < 5000) (hid : b.lastEventId = some e.id) :
    onEventStep handlers now evs b = (b, none) := by
  simp [onEventStep, handleIncomingEvent, hp, hf, hid]

theorem onEventStep_dispatch (handlers : String → List Handler) (now : Int)
    (evs : List Event) (b : BusState) (e : Event) (hp : pickLatest evs = some e)
    (hf : now - e.timestamp < 5000) (hid : b.lastEventId ≠ some e.id) :
    onEventStep handlers now evs b
      = (BusState.mk (some e.id), some (e, runHandlersCaught (handlers e.type) e)) := by
  simp [onEventStep, handleIncomingEvent, hp, hf, hid]

def handlers0 : String → List Handler := fun _ => []

def ev0 : Event := { type := typeX, data := vOne, timestamp := 96000, id := idX }

def ev1 : Event := { type := typeX, data := vOne, timestamp := 47000, id := idX }

/-- Claim C3: a delivery of the events collection dispatches to the
handlers only if the maximum-timestamp event's id differs from the
last dispatched id and the event is less than 5000ms old; and a
broadcast event observed by a fresh subscriber within the freshness
window is dispatched exactly once — the delivery dispatches it, and
any redelivery of the collection containing that same event id
produces no further dispatch. -/
theorem claim3_dedup_and_freshness (handlers : String → List Handler) :
    (∀ (now : Int) (evs : List Event) (b : BusState) (e : Event),
      onEventDispatched handlers now evs b = some e →
        b.lastEventId ≠ some e.id ∧ now - e.timestamp < 5000) ∧
    (∀ (now : Int) (evs : List Event) (e : Event),
      pickLatest evs = some e → now - e.timestamp < 5000 →
        onEventDispatched handlers now evs (BusState.mk none) = some e ∧
        ∀ now2 : Int,
          onEventDispatched handlers now2 evs
            (onEventStep handlers now evs (BusState.mk none)).1 = none) := by
  constructor
  · intro now evs b e h
    unfold onEventDispatched at h
    cases hp : pickLatest evs with
    | none => rw [onEventStep_no_latest handlers now evs b hp] at h; simp at h
    | some a =>
        by_cases hf : now - a.timestamp < 5000
        · by_cases hid : b.lastEventId = some a.id
          · rw [onEventStep_dup handlers now evs b a hp hf hid] at h; simp at h
          · rw [onEventStep_dispatch handlers now evs b a hp hf hid] at h
            simp at h
            subst h
            exact ⟨hid, hf⟩
        · rw [onEventStep_stale handlers now evs b a hp hf] at h; simp at h
  · intro now evs e hp hf
    have hnone : (BusState.mk none).lastEventId ≠ some e.id := by simp
    have hdisp := onEventStep_dispatch handlers now evs (BusState.mk none) e hp hf hnone
    refine ⟨by unfold onEventDispatched; rw [hdisp]; rfl, ?_⟩
    intro now2
    unfold onEventDispatched
    rw [hdisp]
    by_cases hf2 : now2 - e.timestamp < 5000
    · rw [onEventStep_dup handlers now2 evs (BusState.mk (some e.id)) e hp hf2 rfl]
      rfl
    · rw [onEventStep_stale handlers now2 evs (BusState.mk (some e.id)) e hp hf2]
      rfl

theorem claim3_witness :
    onEventDispatched handlers0 100000 [ev0] (BusState.mk none) = some ev0 ∧
    onEventDispatched handlers0 100000 [ev0]
      (onEventStep handlers0 100000 [ev0] (BusState.mk none)).1 = none :=
  ⟨((claim3_dedup_and_freshness handlers0).2 100000 [ev0] ev0 rfl (by decide)).1,
   ((claim3_dedup_and_freshness handlers0).2 100000 [ev0] ev0 rfl (by decide)).2 100000⟩

/-- Claim C4: whenever a delivery of the events collection dispatches
an event, that event belongs to the collection, carries its maximum
timestamp, and is strictly less than 5000ms old at evaluation time —
so a stored event 6000ms (or anything 5000ms or more) in the past is
never passed to a handler. -/
theorem claim4_stale_never_dispatched (handlers : String → List Handler) (now : Int)
    (evs : List Event) (b : BusState) (e : Event)
    (h : onEventDispatched handlers now evs b = some e) :
    e ∈ evs ∧ (∀ x ∈ evs, x.timestamp ≤ e.timestamp) ∧ now - e.timestamp < 5000 := by
  have hpick : pickLatest evs = some e ∧ now - e.timestamp < 5000 := by
    unfold onEventDispatched at h
    cases hp : pickLatest evs with
    | none => rw [onEventStep_no_latest handlers now evs b hp] at h; simp at h
    | some a =>
        by_cases hf : now - a.timestamp < 5000
        · by_cases hid : b.lastEventId = some a.id
          · rw [onEventStep_dup handlers now evs b a hp hf hid] at h; simp at h
          · rw [onEventStep_dispatch handlers now evs b a hp hf hid] at h
            simp at h
            subst h
            exact ⟨rfl, hf⟩
        · rw [onEventStep_stale handlers now evs b a hp hf] at h; simp at h
  exact ⟨pickLatest_mem evs e hpick.1, pickLatest_max evs e hpick.1, hpick.2⟩

theorem claim4_witness :
    ev1 ∈ [ev1] ∧ (∀ x ∈ [ev1], x.timestamp ≤ ev1.timestamp) ∧
    (50000 : Int) - ev1.timestamp < 5000 :=
  claim4_stale_never_dispatched handlers0 50000 [ev1] (BusState.mk none) ev1 rfl

/- Handler isolation. -/

theorem runHandlersCaught_append (l1 l2 : List Handler) (e : Event) :
    runHandlersCaught (l1 ++ l2) e = runHandlersCaught l1 e ++ runHandlersCaught l2 e := by
  induction l1 with
  | nil => rfl
  | cons h t ih => simp [runHandlersCaught, ih]

def msgBoom : String := "handler failure"

def hOk : Handler := fun _ _ => Except.ok ()

def hBad : Handler := fun _ _ => Except.error msgBoom

def handlersB : String → List Handler := fun _ => [hOk, hBad, hOk]

def ev2 : Event := { type := typeX, data := vOne, timestamp := 0, id := idX }

/-- Claim C7: during a dispatch, a handler that throws has its error
caught in place: the trace of handler outcomes is the outcomes of the
handlers before it, then the caught error, then the outcomes of every
handler after it — each handler invoked with the same event — and
handleIncomingEvent still returns (it is a total function, so dispatch
never raises past the event bus boundary). -/
theorem claim7_handler_error_isolated (handlers : String → List Handler) (b : BusState)
    (e : Event) (pre post : List Handler) (hT : Handler) (msg : String)
    (hne : b.lastEventId ≠ some e.id)
    (hsplit : handlers e.type = pre ++ hT :: post)
    (hthrow : hT e.data e = Except.error msg) :
    (handleIncomingEvent handlers b e).2
      = some (runHandlersCaught pre e ++ some msg :: runHandlersCaught post e) := by
  unfold handleIncomingEvent
  rw [if_neg hne, hsplit, runHandlersCaught_append]
  have hhd : runHandlersCaught (hT :: post) e = some msg :: runHandlersCaught post e := by
    simp [runHandlersCaught, handlerOutcome, hthrow]
  rw [hhd]

theorem claim7_witness :
    (handleIncomingEvent handlersB (BusState.mk none) ev2).2
      = some (runHandlersCaught [hOk] ev2 ++ some msgBoom :: runHandlersCaught [hOk] ev2) :=
  claim7_handler_error_isolated handlersB (BusState.mk none) ev2 [hOk] [hOk] hBad msgBoom
    (by simp) rfl rfl

/- Lemmas about the resync push and the connection-monitoring step. -/

theorem setData_offline (rw : Bool) (s : FirebaseCore) (p : String) (v : Val)
    (h : (s.isConnected && !s.localMode) = false) :
    (FirebaseCore.setData rw s p v).1 = s.saveToLocal p v := by
  simp [FirebaseCore.setData, FirebaseCore.saveToLocal, h]

theorem pushLocalPath_isConnected (s : FirebaseCore) (q : String) :
    (s.pushLocalPath q).isConnected = s.isConnected := by
  unfold FirebaseCore.pushLocalPath
  cases s.loadFromLocal q with
  | none => rfl
  | some v => by_cases ht : truthy v <;> simp [ht]

theorem pushLocalPath_localMode (s : FirebaseCore) (q : String) :
    (s.pushLocalPath q).localMode = s.localMode := by
  unfold FirebaseCore.pushLocalPath
  cases s.loadFromLocal q with
  | none => rfl
  | some v => by_cases ht : truthy v <;> simp [ht]

theorem pushLocalPath_localStore (s : FirebaseCore) (q : String) :
    (s.pushLocalPath q).localStore = s.localStore := by
  unfold FirebaseCore.pushLocalPath
  cases s.loadFromLocal q with
  | none => rfl
  | some v => by_cases ht : truthy v <;> simp [ht]

theorem pushLocalPath_loadFromLocal (s : FirebaseCore) (q p : String) :
    (s.pushLocalPath q).loadFromLocal p = s.loadFromLocal p := by
  unfold FirebaseCore.loadFromLocal
  rw [pushLocalPath_localStore]

theorem pushLocalPath_remote_other (s : FirebaseCore) (q pth : String) (h : pth ≠ q) :
    getKey (s.pushLocalPath q).remote pth = getKey s.remote pth := by
  unfold FirebaseCore.pushLocalPath
  cases s.loadFromLocal q with
  | none => rfl
  | some v =>
      by_cases ht : truthy v
      · simp [ht, getKey_setKey_ne _ _ _ _ h]
      · simp [ht]

theorem pushLocalPath_remote_self (s : FirebaseCore) (q : String) (v : Val)
    (hl : s.loadFromLocal q = some v) (ht : truthy v = true) :
    getKey (s.pushLocalPath q).remote q = some v := by
  unfold FirebaseCore.pushLocalPath
  rw [hl]
  simp [ht, getKey_setKey_self]

theorem syncLocalToCloud_isConnected (rw : Bool) (s : FirebaseCore) :
    (FirebaseCore.syncLocalToCloud rw s).isConnected = s.isConnected := by
  unfold FirebaseCore.syncLocalToCloud
  by_cases hg : (!s.isConnected || s.localMode) = true
  · simp [hg]
  · cases rw <;> simp [hg, pushLocalPath_isConnected]

theorem syncLocalToCloud_localMode (rw : Bool) (s : FirebaseCore) :
    (FirebaseCore.syncLocalToCloud rw s).localMode = s.localMode := by
  unfold FirebaseCore.syncLocalToCloud
  by_cases hg : (!s.isConnected || s.localMode) = true
  · simp [hg]
  · cases rw <;> simp [hg, pushLocalPath_localMode]

theorem onConnectedSnapshot_flags (rw : Bool) (s : FirebaseCore) (c : Bool) :
    (FirebaseCore.onConnectedSnapshot rw s c).isConnected = c ∧
    (FirebaseCore.onConnectedSnapshot rw s c).localMode = !c := by
  cases c with
  | false => simp [FirebaseCore.onConnectedSnapshot]
  | true =>
      unfold FirebaseCore.onConnectedSnapshot
      simp [syncLocalToCloud_isConnected, syncLocalToCloud_localMode]

/-- Counterexample to claim C5 as stated: the one-shot resync pushes
only the three fixed paths employees, prizes and lotteryState, so a
value written to the path winners while disconnected is still absent
from the remote store after the reconnect and resync, even though the
local cache holds it. -/
theorem claim5_counterexample :
    getKey (FirebaseCore.onConnectedSnapshot true
      (FirebaseCore.setData true sOffline pathWinners vOne).1 true).remote pathWinners
        = none ∧
    FirebaseCore.loadFromLocal (FirebaseCore.onConnectedSnapshot true
      (FirebaseCore.setData true sOffline pathWinners vOne).1 true) pathWinners
        = some vOne :=
  ⟨rfl, rfl⟩

/-- Claim C5 amended: for the three paths that syncLocalToCloud
actually pushes — employees, prizes and lotteryState — a setData
performed while disconnected, followed by a reconnect whose one-shot
resync succeeds, leaves the remote store's value at that path equal to
the last locally written value, provided that value is truthy (falsy
cached values are skipped by the resync's guards). -/
theorem claim5_amended (s : FirebaseCore) (p : String) (v : Val) (rw : Bool)
    (hp : p = pathEmployees ∨ p = pathPrizes ∨ p = pathLotteryState)
    (hdisc : (s.isConnected && !s.localMode) = false)
    (ht : truthy v = true) :
    getKey (FirebaseCore.onConnectedSnapshot true
      (FirebaseCore.setData rw s p v).1 true).remote p = some v := by
  rw [setData_offline rw s p v hdisc]
  simp only [FirebaseCore.onConnectedSnapshot, FirebaseCore.syncLocalToCloud,
    FirebaseCore.saveToLocal]
  simp only [Bool.not_true, Bool.false_or, Bool.not_false]
  rw [if_neg (by simp), if_neg (by simp), if_pos trivial]
  rcases hp with hp | hp | hp <;> subst hp
  · rw [pushLocalPath_remote_other _ pathLotteryState pathEmployees (by decide),
      pushLocalPath_remote_other _ pathPrizes pathEmployees (by decide)]
    exact pushLocalPath_remote_self _ pathEmployees v
      (by simp [FirebaseCore.loadFromLocal, getKey_setKey_self]) ht
  · rw [pushLocalPath_remote_other _ pathLotteryState pathPrizes (by decide)]
    exact pushLocalPath_remote_self _ pathPrizes v
      (by rw [pushLocalPath_loadFromLocal]
          simp [FirebaseCore.loadFromLocal, getKey_setKey_self]) ht
  · exact pushLocalPath_remote_self _ pathLotteryState v
      (by rw [pushLocalPath_loadFromLocal, pushLocalPath_loadFromLocal]
          simp [FirebaseCore.loadFromLocal, getKey_setKey_self]) ht

theorem claim5_witness :
    getKey (FirebaseCore.onConnectedSnapshot true
      (FirebaseCore.setData true sOffline pathPrizes vOne).1 true).remote pathPrizes
        = some vOne :=
  claim5_amended sOffline pathPrizes vOne true (Or.inr (Or.inl rfl)) rfl rfl

def sOffPrizes : FirebaseCore :=
  { isConnected := false, localMode := true,
    localStore := setKey emptyStore (localKey pathPrizes) vOne, remote := emptyStore }

/-- Counterexample to claim C6 as stated: on a connected snapshot the
listener clears localMode before the resync even runs, and localMode
stays false when the resync push fails — here the resync's remote
write rejects, so nothing reaches the remote store (the truthy cached
prizes value is still absent remotely), yet localMode has already
transitioned from true to false. -/
theorem claim6_counterexample :
    sOffPrizes.localMode = true ∧
    sOffPrizes.loadFromLocal pathPrizes = some vOne ∧
    (FirebaseCore.onConnectedSnapshot false sOffPrizes true).localMode = false ∧
    getKey (FirebaseCore.onConnectedSnapshot false sOffPrizes true).remote pathPrizes
      = none :=
  ⟨rfl, rfl, rfl, rfl⟩

/-- Claim C6 amended: in every state reached by at least one step of
the connection-monitoring listener, localMode is true whenever
isConnected is false (after every step localMode equals the negation
of isConnected); and localMode transitions to false exactly when a
connected snapshot arrives — it is cleared before the resync push is
attempted and remains false even if that push fails. -/
theorem claim6_amended :
    (∀ (s0 s : FirebaseCore), MonitorReached s0 s →
        s.isConnected = false → s.localMode = true) ∧
    (∀ (rw : Bool) (s : FirebaseCore) (c : Bool),
        (FirebaseCore.onConnectedSnapshot rw s c).localMode
          = !(FirebaseCore.onConnectedSnapshot rw s c).isConnected) := by
  constructor
  · intro s0 s hr
    induction hr with
    | step rw c =>
        intro hc
        have hf := onConnectedSnapshot_flags rw s0 c
        rw [hf.1] at hc
        subst hc
        rw [hf.2]
        rfl
    | more s' rw c _ _ =>
        intro hc
        have hf := onConnectedSnapshot_flags rw s' c
        rw [hf.1] at hc
        subst hc
        rw [hf.2]
        rfl
  · intro rw s c
    have hf := onConnectedSnapshot_flags rw s c
    rw [hf.1, hf.2]

theorem claim6_witness :
    (FirebaseCore.onConnectedSnapshot true sOffline false).localMode = true ∧
    (FirebaseCore.onConnectedSnapshot true sOffline false).localMode
      = !(FirebaseCore.onConnectedSnapshot true sOffline false).isConnected :=
  ⟨claim6_amended.1 sOffline _ (MonitorReached.step true false) rfl,
   claim6_amended.2 true sOffline false⟩
